import Mathlib

/-!
Verification of the `drama` Obsidian plugin (TypeScript) against its
natural-language specification.

Strings are modelled as lists of characters (`Str`).  Each definition below
is a shallow embedding of the corresponding function of the source:

* `removeFormatting`    — `main.ts`, `removeFormatting` (regex strip + trim)
* `toggleCharacterStyle`, `toggleStageDirectionStyle` — `main.ts` (first rev.)
* `applyDialogueStyle`  — `main.ts` (second revision) / `part_000`
* `createNewVersionFolder`, `createNewScene` — `main.ts`
* `duplicateVersionFolder` — `part_001`
* `isWritingFolder`, `isProjectFolder`, `isVersionFolder` — `main.ts`

JavaScript `String.prototype.toUpperCase` is embedded by mapping the core
ASCII uppercase table character-wise (`Char.toUpper`), which agrees with the
JS function on the ASCII fragment the plugin manipulates.
-/

/-- Strings of the program, as lists of characters. -/
abbrev Str := List Char

/-- The characters matched by the regex class used in `removeFormatting`:
the source regex is the global pattern matching runs of the four markdown
emphasis-marker characters star, underscore, tilde and backtick. -/
def isMarker (c : Char) : Bool :=
  c == '*' || c == '_' || c == '~' || c == '\u0060'

/-- The ECMAScript whitespace set recognised by `String.prototype.trim`
(WhiteSpace together with LineTerminator code points). -/
def isJSWhitespace (c : Char) : Bool :=
  c == '\u0009' || c == '\u000A' || c == '\u000B' || c == '\u000C' ||
  c == '\u000D' || c == '\u0020' || c == '\u00A0' || c == '\u1680' ||
  c == '\u2000' || c == '\u2001' || c == '\u2002' || c == '\u2003' ||
  c == '\u2004' || c == '\u2005' || c == '\u2006' || c == '\u2007' ||
  c == '\u2008' || c == '\u2009' || c == '\u200A' || c == '\u2028' ||
  c == '\u2029' || c == '\u202F' || c == '\u205F' || c == '\u3000' ||
  c == '\uFEFF'

/-- Embedding of JavaScript `String.prototype.trim`: drop whitespace from
both ends of the string. -/
def jsTrim (s : Str) : Str :=
  ((s.dropWhile isJSWhitespace).reverse.dropWhile isJSWhitespace).reverse

/-- Embedding of the global regex replacement in `removeFormatting`: scan
the string and drop every (run of) emphasis-marker character(s). -/
def stripMarkers : Str → Str
  | [] => []
  | c :: cs => if isMarker c then stripMarkers cs else c :: stripMarkers cs

/-- `main.ts` `removeFormatting(text)`: delete all emphasis markers
(global replace by the empty string), then trim. -/
def removeFormatting (text : Str) : Str :=
  jsTrim (stripMarkers text)

/-- `main.ts` (first revision) `toggleCharacterStyle`: if the line is
already bold-wrapped, replace it by its unformatted form; otherwise wrap
the uppercased unformatted form in a bold marker pair. -/
def toggleCharacterStyle (text : Str) : Str :=
  let unformattedText := removeFormatting text
  if ("**".toList.isPrefixOf text && "**".toList.isSuffixOf text) then
    unformattedText
  else
    "**".toList ++ unformattedText.map Char.toUpper ++ "**".toList

/-- `main.ts` (first revision) `toggleStageDirectionStyle`: if the line
already starts and ends with a star, replace it by its unformatted form;
otherwise wrap the unformatted form in a single-star pair. -/
def toggleStageDirectionStyle (text : Str) : Str :=
  let unformattedText := removeFormatting text
  if ("*".toList.isPrefixOf text && "*".toList.isSuffixOf text) then
    unformattedText
  else
    "*".toList ++ unformattedText ++ "*".toList

/-- `main.ts` (second revision) / `part_000` `applyDialogueStyle`: the
line is replaced by the selected text itself, unchanged. -/
def applyDialogueStyle (text : Str) : Str :=
  text

/-- A child of a folder in the vault: either a note file (with content) or
a subfolder. -/
inductive Entry where
  | file (name content : Str)
  | folder (name : Str)
deriving DecidableEq

/-- The name of a vault entry. -/
def Entry.name : Entry → Str
  | .file n _ => n
  | .folder n => n

/-- The content of a vault entry (empty for folders). -/
def Entry.content : Entry → Str
  | .file _ c => c
  | .folder _ => []

/-- Whether an entry is a file (`instanceof TFile`). -/
def Entry.isFile : Entry → Bool
  | .file _ _ => true
  | .folder _ => false

/-- Whether an entry is a folder (`instanceof TFolder`). -/
def Entry.isFolderEntry : Entry → Bool
  | .file _ _ => false
  | .folder _ => true

/-- `main.ts` `isVersionFolder` on a folder name: the test of the regex
anchored pattern letter v followed by exactly four digits. -/
def isVersionFolder (name : Str) : Bool :=
  match name with
  | c :: ds => c == 'v' && ds.length == 4 && ds.all Char.isDigit
  | [] => false

/-- Embedding of JavaScript `Number.prototype.toString()` (base ten) on
naturals, via a fuel-indexed structural recursion (`fuel` is always large
enough below). -/
def natToStringGo : Nat → Nat → Str
  | 0, _ => []
  | fuel + 1, n =>
    if n < 10 then [Nat.digitChar n]
    else natToStringGo fuel (n / 10) ++ [Nat.digitChar (n % 10)]

/-- Decimal representation of a natural number, as in JS `toString()`. -/
def natToString (n : Nat) : Str :=
  natToStringGo (n + 1) n

/-- Embedding of JavaScript `String.prototype.padStart(target, pad)` with a
one-character pad string. -/
def padStart (target : Nat) (pad : Char) (s : Str) : Str :=
  List.replicate (target - s.length) pad ++ s

/-- `main.ts` `createNewVersionFolder`, pure part: from the project
folder's children, compute the new version folder's name and the three
seed files (in creation order) as name/content pairs. -/
def createNewVersionFolder (children : List Entry) : Str × List (Str × Str) :=
  let versionFolders :=
    children.filter (fun f => f.isFolderEntry && isVersionFolder f.name)
  let nextVersionNumber := versionFolders.length + 1
  let newVersionFolderName :=
    'v' :: padStart 4 '0' (natToString nextVersionNumber)
  (newVersionFolderName,
    [(newVersionFolderName ++ "_0_title_page.md".toList, "# Title Page".toList),
     (newVersionFolderName ++ "_0_notes.md".toList, "# Notes".toList),
     (newVersionFolderName ++ "_scene0001.md".toList, "# Scene 1".toList)])

/-- Embedding of JavaScript `String.prototype.includes`: whether the
pattern occurs as a contiguous substring. -/
def jsIncludes (pat : Str) : Str → Bool
  | [] => pat.isPrefixOf []
  | c :: cs => pat.isPrefixOf (c :: cs) || jsIncludes pat cs

/-- `main.ts` `createNewScene`: from the version folder's path, name and
children, compute the created file's full path and its content. -/
def createNewScene (path name : Str) (children : List Entry) : Str × Str :=
  let sceneFiles :=
    children.filter (fun f => f.isFile && jsIncludes "scene".toList f.name)
  let nextSceneNumber := sceneFiles.length + 1
  let newSceneFileName :=
    path ++ '/' :: 'v' :: name.drop 1 ++ "_scene".toList ++
      padStart 4 '0' (natToString nextSceneNumber) ++ ".md".toList
  (newSceneFileName, "# Scene ".toList ++ natToString nextSceneNumber)

/-- Embedding of JavaScript `String.prototype.replace` with a plain string
pattern: replace the first occurrence of `pat` by `repl` (the string is
returned unchanged when `pat` does not occur; the empty pattern matches at
the start). -/
def jsReplaceFirst (pat repl : Str) : Str → Str
  | [] => if pat.isPrefixOf [] then repl else []
  | c :: cs =>
    if pat.isPrefixOf (c :: cs) then repl ++ (c :: cs).drop pat.length
    else c :: jsReplaceFirst pat repl cs

/-- `part_001` `duplicateVersionFolder`, pure part: from the parent
folder's children, the source folder's name and its children, compute the
new folder's name and the copied files (name after token replacement,
content unchanged), in source order. -/
def duplicateVersionFolder (parentChildren : List Entry) (srcName : Str)
    (srcChildren : List Entry) : Str × List (Str × Str) :=
  let versionFolders :=
    parentChildren.filter
      (fun f => f.isFolderEntry && "v".toList.isPrefixOf f.name)
  let nextVersionNumber := versionFolders.length + 1
  let newName := 'v' :: padStart 4 '0' (natToString nextVersionNumber)
  let files := srcChildren.filterMap (fun e =>
    match e with
    | Entry.file n c => some (jsReplaceFirst srcName newName n, c)
    | Entry.folder _ => none)
  (newName, files)

/-- Spec-side formulation of a zero-padded 4-digit decimal numeral: the
thousands, hundreds, tens and units digits of `n`. -/
def zeroPad4 (n : Nat) : Str :=
  [Nat.digitChar (n / 1000 % 10), Nat.digitChar (n / 100 % 10),
   Nat.digitChar (n / 10 % 10), Nat.digitChar (n % 10)]

/-- The numeric value of a string of decimal digit characters. -/
def digitsVal (s : Str) : Nat :=
  s.foldl (fun a c => 10 * a + (c.toNat - 48)) 0

/-- The vault state, as the list of paths that exist. -/
abbrev Vault := List Str

/-- One host filesystem call issued by the plugin: `vault.createFolder` or
`vault.create`. -/
inductive VaultOp where
  | mkFolder (path : Str)
  | mkFile (path : Str) (content : Str)
deriving DecidableEq

/-- The path targeted by a vault operation. -/
def VaultOp.path : VaultOp → Str
  | .mkFolder p => p
  | .mkFile p _ => p

/-- Apply one creation to the vault; the host raises an error on a path
collision, in which case nothing is created. -/
def applyOp (v : Vault) (op : VaultOp) : Option Vault :=
  if v.contains op.path then none else some (v ++ [op.path])

/-- Result of running a sequence of vault operations. -/
structure RunResult where
  vault : Vault
  completed : Nat
  failed : Bool
deriving DecidableEq

/-- Run vault operations strictly in sequence, each awaited before the
next; the first failure aborts the rest of the sequence with no cleanup. -/
def runOps (v : Vault) : List VaultOp → RunResult
  | [] => ⟨v, 0, false⟩
  | op :: ops =>
    match applyOp v op with
    | none => ⟨v, 0, true⟩
    | some v' =>
      let r := runOps v' ops
      ⟨r.vault, r.completed + 1, r.failed⟩

/-- The exact sequence of host filesystem calls issued by
`createNewVersionFolder` in `main.ts`: create the version folder, then its
three seed files, in this order. -/
def versionFolderOps (path : Str) (children : List Entry) : List VaultOp :=
  let r := createNewVersionFolder children
  let folderPath := path ++ '/' :: r.1
  VaultOp.mkFolder folderPath ::
    r.2.map (fun fc => VaultOp.mkFile (folderPath ++ '/' :: fc.1) fc.2)

/-- Running `createNewVersionFolder`'s creation sequence on a vault. -/
def runCreateNewVersionFolder (v : Vault) (path : Str)
    (children : List Entry) : RunResult :=
  runOps v (versionFolderOps path children)

/-- Truthiness of the JS value held in the `writingFolder` setting:
`null` and the empty string are falsy. -/
def jsFalsyStr : Option Str → Bool
  | none => true
  | some s => s.isEmpty

/-- `main.ts` `isWritingFolder`: when the configured value is falsy the
vault root is the writing folder, otherwise compare with the configured
path. -/
def isWritingFolder (writingFolder : Option Str) (path : Str) : Bool :=
  if jsFalsyStr writingFolder then path == "/".toList
  else path == writingFolder.getD []

/-- `main.ts` `isProjectFolder`: the parent folder exists (JS short-circuit
on a `null` parent) and satisfies `isWritingFolder`. -/
def isProjectFolder (writingFolder : Option Str)
    (parentPath : Option Str) : Bool :=
  match parentPath with
  | none => false
  | some p => isWritingFolder writingFolder p

/-! ### Character-level lemmas -/

theorem char_toNat_inj {c d : Char} (h : c.toNat = d.toNat) : c = d :=
  Char.ext (UInt32.ext h)

theorem char_toNat_ofNat {n : Nat} (h : n < 55296) :
    (Char.ofNat n).toNat = n := by
  unfold Char.ofNat
  rw [dif_pos (Or.inl h)]
  unfold Char.ofNatAux Char.toNat
  simp [UInt32.toNat]

theorem toUpper_eq_or (c : Char) :
    Char.toUpper c = c ∨
      (97 ≤ c.toNat ∧ c.toNat ≤ 122 ∧
        (Char.toUpper c).toNat = c.toNat - 32) := by
  simp only [Char.toUpper]
  split
  · next h =>
    right
    refine ⟨h.1, h.2, ?_⟩
    exact char_toNat_ofNat (by omega)
  · left; rfl

theorem isMarker_iff (c : Char) :
    isMarker c = true ↔
      c.toNat = 42 ∨ c.toNat = 95 ∨ c.toNat = 126 ∨ c.toNat = 96 := by
  unfold isMarker
  simp only [Bool.or_eq_true, beq_iff_eq]
  constructor
  · rintro (((rfl | rfl) | rfl) | rfl) <;> decide
  · have h1 : ('*' : Char).toNat = 42 := by decide
    have h2 : ('_' : Char).toNat = 95 := by decide
    have h3 : ('~' : Char).toNat = 126 := by decide
    have h4 : ('`' : Char).toNat = 96 := by decide
    rintro (h | h | h | h)
    · exact Or.inl (Or.inl (Or.inl (char_toNat_inj (h.trans h1.symm))))
    · exact Or.inl (Or.inl (Or.inr (char_toNat_inj (h.trans h2.symm))))
    · exact Or.inl (Or.inr (char_toNat_inj (h.trans h3.symm)))
    · exact Or.inr (char_toNat_inj (h.trans h4.symm))

theorem isMarker_toUpper (c : Char) :
    isMarker (Char.toUpper c) = isMarker c := by
  rcases toUpper_eq_or c with h | ⟨h1, h2, h3⟩
  · rw [h]
  · have hc : isMarker c = false := by
      rw [Bool.eq_false_iff]
      intro hm
      rw [isMarker_iff] at hm
      omega
    have hu : isMarker (Char.toUpper c) = false := by
      rw [Bool.eq_false_iff]
      intro hm
      rw [isMarker_iff] at hm
      omega
    rw [hc, hu]

theorem ws_false_of_range (c : Char) (h1 : 65 ≤ c.toNat)
    (h2 : c.toNat ≤ 122) : isJSWhitespace c = false := by
  apply Bool.eq_false_iff.mpr
  intro hw
  unfold isJSWhitespace at hw
  simp only [Bool.or_eq_true, beq_iff_eq, or_assoc] at hw
  rcases hw with h|h|h|h|h|h|h|h|h|h|h|h|h|h|h|h|h|h|h|h|h|h|h|h|h <;>
    (subst h; revert h1 h2; decide)

theorem isJSWhitespace_toUpper (c : Char) :
    isJSWhitespace (Char.toUpper c) = isJSWhitespace c := by
  rcases toUpper_eq_or c with h | ⟨h1, h2, h3⟩
  · rw [h]
  · have hc : isJSWhitespace c = false :=
      ws_false_of_range c (by omega) (by omega)
    have hu : isJSWhitespace (Char.toUpper c) = false :=
      ws_false_of_range _ (by omega) (by omega)
    rw [hc, hu]

/-! ### Decimal-numeral lemmas -/

theorem natToStringGo_small (fuel n : Nat) (hf : 1 ≤ fuel) (h : n < 10) :
    natToStringGo fuel n = [Nat.digitChar n] := by
  cases fuel with
  | zero => omega
  | succ f => simp [natToStringGo, h]

theorem natToStringGo_step (fuel n : Nat) (hf : 1 ≤ fuel) (h : 10 ≤ n) :
    natToStringGo fuel n =
      natToStringGo (fuel - 1) (n / 10) ++ [Nat.digitChar (n % 10)] := by
  cases fuel with
  | zero => omega
  | succ f => simp [natToStringGo, Nat.not_lt.2 h]

theorem natToString_b1 {n : Nat} (h : n < 10) :
    natToString n = [Nat.digitChar n] :=
  natToStringGo_small _ _ (by omega) h

theorem natToString_b2 {n : Nat} (h1 : 10 ≤ n) (h : n < 100) :
    natToString n = [Nat.digitChar (n / 10), Nat.digitChar (n % 10)] := by
  unfold natToString
  rw [natToStringGo_step (n + 1) n (by omega) (by omega)]
  simp only [Nat.add_sub_cancel]
  rw [natToStringGo_small n (n / 10) (by omega) (by omega)]
  rfl

theorem natToString_b3 {n : Nat} (h1 : 100 ≤ n) (h : n < 1000) :
    natToString n = [Nat.digitChar (n / 100), Nat.digitChar (n / 10 % 10),
      Nat.digitChar (n % 10)] := by
  unfold natToString
  rw [natToStringGo_step (n + 1) n (by omega) (by omega)]
  simp only [Nat.add_sub_cancel]
  rw [natToStringGo_step n (n / 10) (by omega) (by omega)]
  rw [natToStringGo_small (n - 1) (n / 10 / 10) (by omega) (by omega)]
  have e : n / 10 / 10 = n / 100 := by
    rw [Nat.div_div_eq_div_mul]
  rw [e]
  rfl

theorem natToString_b4 {n : Nat} (h1 : 1000 ≤ n) (h : n < 10000) :
    natToString n = [Nat.digitChar (n / 1000), Nat.digitChar (n / 100 % 10),
      Nat.digitChar (n / 10 % 10), Nat.digitChar (n % 10)] := by
  unfold natToString
  rw [natToStringGo_step (n + 1) n (by omega) (by omega)]
  simp only [Nat.add_sub_cancel]
  rw [natToStringGo_step n (n / 10) (by omega) (by omega)]
  rw [natToStringGo_step (n - 1) (n / 10 / 10) (by omega) (by omega)]
  have e : n / 10 / 10 = n / 100 := by
    rw [Nat.div_div_eq_div_mul]
  have e2 : n / 100 / 10 = n / 1000 := by
    rw [Nat.div_div_eq_div_mul]
  rw [e]
  rw [natToStringGo_small (n - 1 - 1) (n / 100 / 10) (by omega) (by omega)]
  rw [e2]
  rfl

theorem padStart_natToString {n : Nat} (h1 : 1 ≤ n) (h2 : n ≤ 9999) :
    padStart 4 '0' (natToString n) = zeroPad4 n := by
  have d0 : Nat.digitChar 0 = '0' := rfl
  rcases Nat.lt_or_ge n 10 with hb | hb1
  · rw [natToString_b1 hb]
    have e1 : n / 1000 % 10 = 0 := by omega
    have e2 : n / 100 % 10 = 0 := by omega
    have e3 : n / 10 % 10 = 0 := by omega
    have e4 : n % 10 = n := by omega
    simp [padStart, zeroPad4, e1, e2, e3, e4, d0, List.replicate]
  · rcases Nat.lt_or_ge n 100 with hb | hb2
    · rw [natToString_b2 hb1 hb]
      have e1 : n / 1000 % 10 = 0 := by omega
      have e2 : n / 100 % 10 = 0 := by omega
      have e3 : n / 10 % 10 = n / 10 := by omega
      simp [padStart, zeroPad4, e1, e2, e3, d0, List.replicate]
    · rcases Nat.lt_or_ge n 1000 with hb | hb3
      · rw [natToString_b3 hb2 hb]
        have e1 : n / 1000 % 10 = 0 := by omega
        have e2 : n / 100 % 10 = n / 100 := by omega
        simp [padStart, zeroPad4, e1, e2, d0, List.replicate]
      · rw [natToString_b4 hb3 (by omega)]
        have e1 : n / 1000 % 10 = n / 1000 := by omega
        simp [padStart, zeroPad4, e1, List.replicate]

theorem digitChar_toNat {d : Nat} (h : d < 10) :
    (Nat.digitChar d).toNat = 48 + d := by
  interval_cases d <;> decide

theorem digitChar_isDigit {d : Nat} (h : d < 10) :
    (Nat.digitChar d).isDigit = true := by
  interval_cases d <;> decide

theorem zeroPad4_val {n : Nat} (h : n ≤ 9999) :
    digitsVal (zeroPad4 n) = n := by
  unfold digitsVal zeroPad4
  simp only [List.foldl]
  rw [digitChar_toNat (by omega : n / 1000 % 10 < 10),
    digitChar_toNat (by omega : n / 100 % 10 < 10),
    digitChar_toNat (by omega : n / 10 % 10 < 10),
    digitChar_toNat (by omega : n % 10 < 10)]
  omega

theorem zeroPad4_all_digits (n : Nat) :
    (zeroPad4 n).all Char.isDigit = true := by
  simp [zeroPad4, List.all,
    digitChar_isDigit (by omega : n / 1000 % 10 < 10),
    digitChar_isDigit (by omega : n / 100 % 10 < 10),
    digitChar_isDigit (by omega : n / 10 % 10 < 10),
    digitChar_isDigit (by omega : n % 10 < 10)]

theorem isVersionFolder_pad (n : Nat) :
    isVersionFolder ('v' :: zeroPad4 n) = true := by
  simp [isVersionFolder, zeroPad4, List.all,
    digitChar_isDigit (by omega : n / 1000 % 10 < 10),
    digitChar_isDigit (by omega : n / 100 % 10 < 10),
    digitChar_isDigit (by omega : n / 10 % 10 < 10),
    digitChar_isDigit (by omega : n % 10 < 10)]

/-! ### String-transformation lemmas -/

theorem stripMarkers_eq_filter (s : Str) :
    stripMarkers s = s.filter (fun c => !isMarker c) := by
  induction s with
  | nil => rfl
  | cons c cs ih =>
    by_cases h : isMarker c = true
    · simp [stripMarkers, h, List.filter, ih]
    · rw [Bool.not_eq_true] at h
      simp [stripMarkers, h, List.filter, ih]

theorem mem_jsTrim {c : Char} {s : Str} (h : c ∈ jsTrim s) : c ∈ s := by
  unfold jsTrim at h
  rw [List.mem_reverse] at h
  have h2 := (List.dropWhile_sublist isJSWhitespace).subset h
  rw [List.mem_reverse] at h2
  exact (List.dropWhile_sublist isJSWhitespace).subset h2

theorem jsTrim_map {f : Char → Char}
    (hf : ∀ c, isJSWhitespace (f c) = isJSWhitespace c) (s : Str) :
    jsTrim (s.map f) = (jsTrim s).map f := by
  have hcomp : (isJSWhitespace ∘ f) = isJSWhitespace := by
    funext c
    exact hf c
  unfold jsTrim
  rw [List.dropWhile_map, hcomp, ← List.map_reverse, List.dropWhile_map,
    hcomp, ← List.map_reverse]

theorem removeFormatting_no_marker (t : Str) :
    (removeFormatting t).all (fun c => !isMarker c) = true := by
  rw [List.all_eq_true]
  intro c hc
  have h1 : c ∈ stripMarkers t := mem_jsTrim hc
  rw [stripMarkers_eq_filter, List.mem_filter] at h1
  exact h1.2

theorem removeFormatting_of_clean {t : Str}
    (h1 : t.all (fun c => !isMarker c) = true) (h2 : jsTrim t = t) :
    removeFormatting t = t := by
  unfold removeFormatting
  rw [stripMarkers_eq_filter, List.filter_eq_self.mpr (List.all_eq_true.mp h1), h2]

theorem star_mem_of_bold {t : Str}
    (h : ("**".toList.isPrefixOf t && "**".toList.isSuffixOf t) = true) :
    '*' ∈ t := by
  rw [Bool.and_eq_true] at h
  have hp := List.isPrefixOf_iff_prefix.mp h.1
  exact hp.subset (by decide)

theorem star_mem_of_italic {t : Str}
    (h : ("*".toList.isPrefixOf t && "*".toList.isSuffixOf t) = true) :
    '*' ∈ t := by
  rw [Bool.and_eq_true] at h
  have hp := List.isPrefixOf_iff_prefix.mp h.1
  exact hp.subset (by decide)

theorem no_star_of_clean {t : Str}
    (h : t.all (fun c => !isMarker c) = true) : ¬ ('*' ∈ t) := by
  intro hmem
  have := List.all_eq_true.mp h '*' hmem
  simp [isMarker] at this

theorem natToString_val {n : Nat} (h1 : 1 ≤ n) (h2 : n ≤ 9999) :
    digitsVal (natToString n) = n ∧ (natToString n).all Char.isDigit = true := by
  rcases Nat.lt_or_ge n 10 with hb | hb1
  · rw [natToString_b1 hb]
    unfold digitsVal
    simp only [List.foldl, List.all, Bool.and_true]
    rw [digitChar_toNat (by omega : n < 10)]
    exact ⟨by omega, digitChar_isDigit (by omega)⟩
  · rcases Nat.lt_or_ge n 100 with hb | hb2
    · rw [natToString_b2 hb1 hb]
      unfold digitsVal
      simp only [List.foldl, List.all, Bool.and_true, Bool.and_eq_true]
      rw [digitChar_toNat (by omega : n / 10 < 10),
        digitChar_toNat (by omega : n % 10 < 10)]
      exact ⟨by omega, digitChar_isDigit (by omega), digitChar_isDigit (by omega)⟩
    · rcases Nat.lt_or_ge n 1000 with hb | hb3
      · rw [natToString_b3 hb2 hb]
        unfold digitsVal
        simp only [List.foldl, List.all, Bool.and_true, Bool.and_eq_true]
        rw [digitChar_toNat (by omega : n / 100 < 10),
          digitChar_toNat (by omega : n / 10 % 10 < 10),
          digitChar_toNat (by omega : n % 10 < 10)]
        exact ⟨by omega, digitChar_isDigit (by omega),
          digitChar_isDigit (by omega), digitChar_isDigit (by omega)⟩
      · rw [natToString_b4 hb3 (by omega)]
        unfold digitsVal
        simp only [List.foldl, List.all, Bool.and_true, Bool.and_eq_true]
        rw [digitChar_toNat (by omega : n / 1000 < 10),
          digitChar_toNat (by omega : n / 100 % 10 < 10),
          digitChar_toNat (by omega : n / 10 % 10 < 10),
          digitChar_toNat (by omega : n % 10 < 10)]
        exact ⟨by omega, digitChar_isDigit (by omega),
          digitChar_isDigit (by omega), digitChar_isDigit (by omega),
          digitChar_isDigit (by omega)⟩

theorem version_name_head {name : Str} (h : isVersionFolder name = true) :
    name = 'v' :: name.drop 1 := by
  cases name with
  | nil => simp [isVersionFolder] at h
  | cons c cs =>
    simp only [isVersionFolder, Bool.and_eq_true, beq_iff_eq] at h
    obtain ⟨⟨hc, _⟩, _⟩ := h
    subst hc
    rfl

/-! ### Vault-run lemmas -/

theorem applyOp_some {v : Vault} {op : VaultOp} {v' : Vault}
    (h : applyOp v op = some v') : v' = v ++ [op.path] := by
  unfold applyOp at h
  split at h
  · exact absurd h (by simp)
  · exact (Option.some_inj.mp h).symm

theorem runOps_preserves (ops : List VaultOp) :
    ∀ (v : Vault), ∀ p ∈ v, p ∈ (runOps v ops).vault := by
  induction ops with
  | nil =>
    intro v p hp
    simpa [runOps] using hp
  | cons op ops ih =>
    intro v p hp
    unfold runOps
    cases hap : applyOp v op with
    | none => simpa using hp
    | some v' =>
      simp only []
      exact ih v' p (by rw [applyOp_some hap]; exact List.mem_append_left _ hp)

theorem runOps_failed_lt (ops : List VaultOp) :
    ∀ (v : Vault), (runOps v ops).failed = true →
      (runOps v ops).completed < ops.length := by
  induction ops with
  | nil =>
    intro v h
    simp [runOps] at h
  | cons op ops ih =>
    intro v h
    unfold runOps at h ⊢
    cases hap : applyOp v op with
    | none => simp [hap]
    | some v' =>
      rw [hap] at h
      simp only [] at h
      simp only [hap, List.length_cons]
      exact Nat.succ_lt_succ (ih v' h)

theorem runOps_created (ops : List VaultOp) :
    ∀ (v : Vault), ∀ op ∈ ops.take (runOps v ops).completed,
      op.path ∈ (runOps v ops).vault := by
  induction ops with
  | nil =>
    intro v op hop
    simp [runOps] at hop
  | cons op0 ops ih =>
    intro v op hop
    unfold runOps at hop ⊢
    cases hap : applyOp v op0 with
    | none =>
      rw [hap] at hop
      simp at hop
    | some v' =>
      rw [hap] at hop
      simp only [List.take_succ_cons, List.mem_cons] at hop
      simp only []
      rcases hop with rfl | hop
      · apply runOps_preserves ops v'
        rw [applyOp_some hap]
        exact List.mem_append_right _ (by simp)
      · exact ih v' op hop

theorem runOps_vault_from (ops : List VaultOp) :
    ∀ (v : Vault), ∀ p ∈ (runOps v ops).vault,
      p ∈ v ∨ p ∈ (ops.take (runOps v ops).completed).map VaultOp.path := by
  induction ops with
  | nil =>
    intro v p hp
    exact Or.inl (by simpa [runOps] using hp)
  | cons op ops ih =>
    intro v p hp
    unfold runOps at hp ⊢
    cases hap : applyOp v op with
    | none =>
      rw [hap] at hp
      exact Or.inl (by simpa using hp)
    | some v' =>
      rw [hap] at hp
      simp only [] at hp
      simp only [List.take_succ_cons, List.map_cons, List.mem_cons]
      rcases ih v' p hp with hv' | htail
      · rw [applyOp_some hap] at hv'
        rcases List.mem_append.mp hv' with hv | hpath
        · exact Or.inl hv
        · exact Or.inr (Or.inl (by simpa using hpath))
      · exact Or.inr (Or.inr htail)

/-- Helper: over a list of files only, the copy loop of
`duplicateVersionFolder` acts as a map. -/
theorem filterMap_files (srcName nm : Str) :
    ∀ (l : List Entry), l.all Entry.isFile = true →
      (l.filterMap (fun e =>
        match e with
        | Entry.file n c => some (jsReplaceFirst srcName nm n, c)
        | Entry.folder _ => none)) =
      l.map (fun e => (jsReplaceFirst srcName nm e.name, e.content)) := by
  intro l
  induction l with
  | nil => intro _; rfl
  | cons e l ih =>
    intro hall
    rw [List.all_cons, Bool.and_eq_true] at hall
    cases e with
    | file n c =>
      simp only [List.filterMap_cons, List.map_cons, Entry.name, Entry.content]
      rw [ih hall.2]
      rfl
    | folder n => simp [Entry.isFile] at hall

example : createNewScene "p".toList "v0002".toList
    [Entry.file "v0002_scene0001.md".toList [], Entry.file "v0002_scene0002.md".toList []] =
    ("p/v0002_scene0003.md".toList, "# Scene 3".toList) := by decide

/-- C1: for a project folder with exactly k version-pattern children,
Create Version Folder yields the folder named letter v followed by the
zero-padded 4-digit numeral of k+1 (a name again matching the version
pattern, whose digits read back as k+1), together with exactly the three
seed files title page, notes and first scene inside it. -/
theorem createNewVersionFolder_spec (children : List Entry) (k : Nat)
    (hcount : (children.filter
      (fun f => f.isFolderEntry && isVersionFolder f.name)).length = k)
    (hk : k ≤ 9998) :
    (createNewVersionFolder children).1 = 'v' :: zeroPad4 (k + 1) ∧
    isVersionFolder (createNewVersionFolder children).1 = true ∧
    digitsVal (zeroPad4 (k + 1)) = k + 1 ∧
    (zeroPad4 (k + 1)).length = 4 ∧
    (createNewVersionFolder children).2 =
      [('v' :: zeroPad4 (k + 1) ++ "_0_title_page.md".toList,
        "# Title Page".toList),
       ('v' :: zeroPad4 (k + 1) ++ "_0_notes.md".toList, "# Notes".toList),
       ('v' :: zeroPad4 (k + 1) ++ "_scene0001.md".toList,
        "# Scene 1".toList)] := by
  have hpad : padStart 4 '0' (natToString (k + 1)) = zeroPad4 (k + 1) :=
    padStart_natToString (by omega) (by omega)
  have hname : (createNewVersionFolder children).1 = 'v' :: zeroPad4 (k + 1) := by
    show 'v' :: padStart 4 '0' (natToString ((children.filter
      (fun f => f.isFolderEntry && isVersionFolder f.name)).length + 1)) = _
    rw [hcount, hpad]
  refine ⟨hname, ?_, zeroPad4_val (by omega), rfl, ?_⟩
  · rw [hname]
    exact isVersionFolder_pad (k + 1)
  · show [('v' :: padStart 4 '0' (natToString ((children.filter
        (fun f => f.isFolderEntry && isVersionFolder f.name)).length + 1)) ++
          "_0_title_page.md".toList, "# Title Page".toList),
      ('v' :: padStart 4 '0' (natToString ((children.filter
        (fun f => f.isFolderEntry && isVersionFolder f.name)).length + 1)) ++
          "_0_notes.md".toList, "# Notes".toList),
      ('v' :: padStart 4 '0' (natToString ((children.filter
        (fun f => f.isFolderEntry && isVersionFolder f.name)).length + 1)) ++
          "_scene0001.md".toList, "# Scene 1".toList)] = _
    rw [hcount, hpad]

/-- Witness for C1, the spec's scenario: a project folder with no children
yields `v0001` containing exactly the three seed files. -/
theorem createNewVersionFolder_spec_witness :
    (createNewVersionFolder []).1 = "v0001".toList ∧
    (createNewVersionFolder []).2 =
      [("v0001_0_title_page.md".toList, "# Title Page".toList),
       ("v0001_0_notes.md".toList, "# Notes".toList),
       ("v0001_scene0001.md".toList, "# Scene 1".toList)] := by
  have h := createNewVersionFolder_spec [] 0 (by decide) (by decide)
  exact ⟨h.1.trans (by decide), h.2.2.2.2.trans (by decide)⟩

/-- C4: for a version folder with exactly m children that are files whose
name contains the word scene, Create Scene File yields the file
`<version-folder-name>_scene` followed by the zero-padded 4-digit numeral
of m+1 and `.md`, with content the heading `# Scene ` followed by the
decimal numeral of m+1 (whose digits read back as m+1). -/
theorem createNewScene_spec (path name : Str) (children : List Entry)
    (m : Nat) (hname : isVersionFolder name = true)
    (hcount : (children.filter
      (fun f => f.isFile && jsIncludes "scene".toList f.name)).length = m)
    (hm : m ≤ 9998) :
    (createNewScene path name children).1 =
      path ++ '/' :: (name ++ "_scene".toList ++ zeroPad4 (m + 1) ++
        ".md".toList) ∧
    (createNewScene path name children).2 =
      "# Scene ".toList ++ natToString (m + 1) ∧
    digitsVal (natToString (m + 1)) = m + 1 ∧
    (natToString (m + 1)).all Char.isDigit = true := by
  have hpad : padStart 4 '0' (natToString (m + 1)) = zeroPad4 (m + 1) :=
    padStart_natToString (by omega) (by omega)
  have hval := natToString_val (n := m + 1) (by omega) (by omega)
  refine ⟨?_, ?_, hval.1, hval.2⟩
  · show path ++ '/' :: 'v' :: name.drop 1 ++ "_scene".toList ++
      padStart 4 '0' (natToString ((children.filter
        (fun f => f.isFile && jsIncludes "scene".toList f.name)).length + 1)) ++
      ".md".toList = _
    rw [hcount, hpad, ← version_name_head hname]
    simp [List.append_assoc]
  · show (_, "# Scene ".toList ++ natToString ((children.filter
      (fun f => f.isFile && jsIncludes "scene".toList f.name)).length + 1)).2 = _
    rw [hcount]

/-- Witness for C4, the spec's scenario: version folder `v0002` with two
existing scene files yields `v0002_scene0003.md` with heading `# Scene 3`. -/
theorem createNewScene_spec_witness :
    (createNewScene "p".toList "v0002".toList
      [Entry.file "v0002_scene0001.md".toList [],
       Entry.file "v0002_scene0002.md".toList []]).1 =
      "p/v0002_scene0003.md".toList ∧
    (createNewScene "p".toList "v0002".toList
      [Entry.file "v0002_scene0001.md".toList [],
       Entry.file "v0002_scene0002.md".toList []]).2 =
      "# Scene 3".toList := by
  have h := createNewScene_spec "p".toList "v0002".toList
    [Entry.file "v0002_scene0001.md".toList [],
     Entry.file "v0002_scene0002.md".toList []] 2 (by decide) (by decide)
    (by decide)
  exact ⟨h.1.trans (by decide), h.2.1.trans (by decide)⟩

/-- C7: a gap in the version numbering makes Create Version Folder compute
a target name equal to an existing child's name: with only `v0002` present
the computed name is again `v0002`, with `v0001` and `v0003` present it is
`v0003`; running the creation sequence on such a vault fails at the very
first call with nothing created. -/
theorem createNewVersionFolder_gap_collision :
    ((createNewVersionFolder [Entry.folder "v0002".toList]).1 =
        "v0002".toList ∧
      "v0002".toList ∈ [Entry.folder "v0002".toList].map Entry.name) ∧
    ((createNewVersionFolder [Entry.folder "v0001".toList,
        Entry.folder "v0003".toList]).1 = "v0003".toList ∧
      "v0003".toList ∈ [Entry.folder "v0001".toList,
        Entry.folder "v0003".toList].map Entry.name) ∧
    (runCreateNewVersionFolder ["w/v0002".toList] "w".toList
      [Entry.folder "v0002".toList]).failed = true ∧
    (runCreateNewVersionFolder ["w/v0002".toList] "w".toList
      [Entry.folder "v0002".toList]).completed = 0 ∧
    (runCreateNewVersionFolder ["w/v0002".toList] "w".toList
      [Entry.folder "v0002".toList]).vault = ["w/v0002".toList] := by
  refine ⟨⟨by decide, by decide⟩, ⟨by decide, by decide⟩, by decide,
    by decide, by decide⟩

/-- C3 (code evaluated at the failing input): Dialogue style is the
identity, so on the line with two bold markers around X the markers
remain in the output, while idempotence does hold. -/
theorem applyDialogueStyle_markers_remain :
    applyDialogueStyle "**X**".toList = "**X**".toList ∧
    (applyDialogueStyle "**X**".toList).all (fun c => !isMarker c) = false ∧
    (∀ t : Str, applyDialogueStyle (applyDialogueStyle t) =
      applyDialogueStyle t) ∧
    (∀ t : Str, applyDialogueStyle t = t) := by
  exact ⟨rfl, by decide, fun t => rfl, fun t => rfl⟩

/-- C9: `removeFormatting` equals filtering out every occurrence of the
four marker characters anywhere in the string followed by trimming
whitespace at both ends; its output never contains a marker; and in
consequence the Character and Stage-Direction toggles delete interior
marker characters rather than preserving them. -/
theorem removeFormatting_global_strip :
    (∀ t : Str,
      removeFormatting t = jsTrim (t.filter (fun c => !isMarker c)) ∧
      (removeFormatting t).all (fun c => !isMarker c) = true) ∧
    removeFormatting " a ".toList = "a".toList ∧
    toggleCharacterStyle "he*llo".toList = "**HELLO**".toList ∧
    toggleStageDirectionStyle "a*b".toList = "*ab*".toList := by
  refine ⟨fun t => ⟨?_, removeFormatting_no_marker t⟩, by decide, by decide,
    by decide⟩
  unfold removeFormatting
  rw [stripMarkers_eq_filter]

/-- C10: with the writing-folder setting holding the empty string the
folder classification behaves exactly as with no setting at all: only the
vault root path is the writing folder, and project folders are exactly the
direct children of the vault root. -/
theorem isWritingFolder_empty_setting :
    (∀ path : Str,
      isWritingFolder (some []) path = isWritingFolder none path) ∧
    (∀ path : Str, isWritingFolder (some []) path = (path == "/".toList)) ∧
    (∀ pp : Option Str,
      isProjectFolder (some []) pp = isProjectFolder none pp) ∧
    (∀ p : Str, isProjectFolder (some []) (some p) = (p == "/".toList)) ∧
    isProjectFolder (some []) none = false := by
  refine ⟨fun path => rfl, fun path => rfl, ?_, fun p => rfl, rfl⟩
  intro pp
  cases pp <;> rfl

/-- Branch form of `toggleCharacterStyle` (definitional). -/
theorem toggleCharacterStyle_eq (text : Str) :
    toggleCharacterStyle text =
      if ("**".toList.isPrefixOf text && "**".toList.isSuffixOf text) then
        removeFormatting text
      else
        "**".toList ++ (removeFormatting text).map Char.toUpper ++
          "**".toList := rfl

/-- Branch form of `toggleStageDirectionStyle` (definitional). -/
theorem toggleStageDirectionStyle_eq (text : Str) :
    toggleStageDirectionStyle text =
      if ("*".toList.isPrefixOf text && "*".toList.isSuffixOf text) then
        removeFormatting text
      else
        "*".toList ++ removeFormatting text ++ "*".toList := rfl

/-- C2 counterexample: Character style is not an involution on the nose:
the line with word hello becomes the bold uppercased line, and re-invoking
yields the uppercased word, not the original lowercase word. -/
theorem toggleCharacterStyle_not_involutive_cex :
    toggleCharacterStyle "hello".toList = "**HELLO**".toList ∧
    toggleCharacterStyle (toggleCharacterStyle "hello".toList) =
      "HELLO".toList ∧
    toggleCharacterStyle (toggleCharacterStyle "hello".toList) ≠
      "hello".toList := by
  exact ⟨by decide, by decide, by decide⟩

/-- C2 amended: on an unformatted line (no marker characters, no leading
or trailing whitespace) Character style uppercases and bold-wraps, and
re-invoking it on the result restores the unformatted content up to case
folding: it yields the uppercased original line. -/
theorem toggleCharacterStyle_uppercase_roundtrip (t : Str)
    (h1 : t.all (fun c => !isMarker c) = true) (h2 : jsTrim t = t) :
    toggleCharacterStyle t =
      "**".toList ++ t.map Char.toUpper ++ "**".toList ∧
    toggleCharacterStyle (toggleCharacterStyle t) = t.map Char.toUpper := by
  have hclean : removeFormatting t = t := removeFormatting_of_clean h1 h2
  have hnotbold :
      ("**".toList.isPrefixOf t && "**".toList.isSuffixOf t) = false := by
    apply Bool.eq_false_iff.mpr
    intro hb
    exact no_star_of_clean h1 (star_mem_of_bold hb)
  have hfirst : toggleCharacterStyle t =
      "**".toList ++ t.map Char.toUpper ++ "**".toList := by
    rw [toggleCharacterStyle_eq, hnotbold,
      if_neg (show ¬(false = true) by decide), hclean]
  have husmarker : (t.map Char.toUpper).all (fun c => !isMarker c) = true := by
    rw [List.all_map]
    have hcmp : ((fun c => !isMarker c) ∘ Char.toUpper) =
        fun c => !isMarker c := by
      funext c
      simp [Function.comp, isMarker_toUpper]
    rw [hcmp]
    exact h1
  have hutrim : jsTrim (t.map Char.toUpper) = t.map Char.toUpper := by
    rw [jsTrim_map isJSWhitespace_toUpper, h2]
  have hbold : ("**".toList.isPrefixOf
        ("**".toList ++ t.map Char.toUpper ++ "**".toList) &&
      "**".toList.isSuffixOf
        ("**".toList ++ t.map Char.toUpper ++ "**".toList)) = true := by
    rw [Bool.and_eq_true]
    constructor
    · apply List.isPrefixOf_iff_prefix.mpr
      rw [List.append_assoc]
      exact List.prefix_append _ _
    · exact List.isSuffixOf_iff_suffix.mpr (List.suffix_append _ _)
  refine ⟨hfirst, ?_⟩
  rw [hfirst, toggleCharacterStyle_eq, hbold, if_pos rfl]
  unfold removeFormatting
  rw [stripMarkers_eq_filter, List.filter_append, List.filter_append]
  have hstars : List.filter (fun c => !isMarker c) "**".toList = [] := by
    decide
  rw [hstars,
    List.filter_eq_self.mpr (List.all_eq_true.mp husmarker)]
  simp only [List.nil_append, List.append_nil]
  exact hutrim

/-- Witness for the amended C2 at the concrete line with word hi. -/
theorem toggleCharacterStyle_uppercase_roundtrip_witness :
    toggleCharacterStyle "hi".toList = "**HI**".toList ∧
    toggleCharacterStyle (toggleCharacterStyle "hi".toList) =
      "HI".toList := by
  have h := toggleCharacterStyle_uppercase_roundtrip "hi".toList (by decide)
    (by decide)
  exact ⟨h.1.trans (by decide), h.2.trans (by decide)⟩

/-- C6: Stage-Direction style removes the star wrapping exactly on lines
that already start and end with a star, and on every other line strips all
emphasis markers and wraps the result in a single-star pair whose interior
then contains no marker (so the result is never wrapped twice); wrapping a
clean line and toggling returns the line itself. -/
theorem toggleStageDirectionStyle_spec :
    (∀ text : Str,
      (("*".toList.isPrefixOf text && "*".toList.isSuffixOf text) = true →
        toggleStageDirectionStyle text = removeFormatting text) ∧
      (("*".toList.isPrefixOf text && "*".toList.isSuffixOf text) = false →
        toggleStageDirectionStyle text =
          "*".toList ++ removeFormatting text ++ "*".toList ∧
        (removeFormatting text).all (fun c => !isMarker c) = true)) ∧
    (∀ inner : Str, inner.all (fun c => !isMarker c) = true →
      jsTrim inner = inner →
      toggleStageDirectionStyle ("*".toList ++ inner ++ "*".toList) =
        inner) := by
  refine ⟨fun text => ⟨?_, ?_⟩, ?_⟩
  · intro h
    rw [toggleStageDirectionStyle_eq, h, if_pos rfl]
  · intro h
    rw [toggleStageDirectionStyle_eq, h,
      if_neg (show ¬(false = true) by decide)]
    exact ⟨rfl, removeFormatting_no_marker text⟩
  · intro inner hm ht
    have hital : ("*".toList.isPrefixOf
          ("*".toList ++ inner ++ "*".toList) &&
        "*".toList.isSuffixOf ("*".toList ++ inner ++ "*".toList)) = true := by
      rw [Bool.and_eq_true]
      constructor
      · apply List.isPrefixOf_iff_prefix.mpr
        rw [List.append_assoc]
        exact List.prefix_append _ _
      · exact List.isSuffixOf_iff_suffix.mpr (List.suffix_append _ _)
    rw [toggleStageDirectionStyle_eq, hital, if_pos rfl]
    unfold removeFormatting
    rw [stripMarkers_eq_filter, List.filter_append, List.filter_append]
    have hstar : List.filter (fun c => !isMarker c) "*".toList = [] := by
      decide
    rw [hstar, List.filter_eq_self.mpr (List.all_eq_true.mp hm)]
    simp only [List.nil_append, List.append_nil]
    exact ht

/-- Witness for C6: the plain line abc takes the wrap branch and becomes
starred; the already-starred line with word hi takes the unwrap branch and
reverts to the plain word. -/
theorem toggleStageDirectionStyle_spec_witness :
    toggleStageDirectionStyle "abc".toList = "*abc*".toList ∧
    (removeFormatting "abc".toList).all (fun c => !isMarker c) = true ∧
    toggleStageDirectionStyle "*hi*".toList = "hi".toList := by
  have h := (toggleStageDirectionStyle_spec.1 "abc".toList).2 (by decide)
  have h2 := toggleStageDirectionStyle_spec.2 "hi".toList (by decide)
    (by decide)
  refine ⟨h.1.trans (by decide), h.2, ?_⟩
  rw [show ("*hi*".toList : Str) =
    "*".toList ++ "hi".toList ++ "*".toList from by decide]
  exact h2

/-- C5: when all children of the source version folder are files,
Duplicate Version Folder produces exactly one file per source file, in
order, each with content identical to the source file's content and with
name obtained from the source name by replacing the source folder's name
by the new folder's name. -/
theorem duplicateVersionFolder_spec (parentChildren : List Entry)
    (srcName : Str) (srcChildren : List Entry)
    (hall : srcChildren.all Entry.isFile = true) :
    (duplicateVersionFolder parentChildren srcName srcChildren).2.length =
      srcChildren.length ∧
    (duplicateVersionFolder parentChildren srcName srcChildren).2 =
      srcChildren.map (fun e =>
        (jsReplaceFirst srcName
          (duplicateVersionFolder parentChildren srcName srcChildren).1
          e.name,
         e.content)) := by
  have hmap := filterMap_files srcName
    (duplicateVersionFolder parentChildren srcName srcChildren).1
    srcChildren hall
  have h2eq : (duplicateVersionFolder parentChildren srcName srcChildren).2 =
      srcChildren.filterMap (fun e =>
        match e with
        | Entry.file n c => some (jsReplaceFirst srcName
            (duplicateVersionFolder parentChildren srcName srcChildren).1 n,
          c)
        | Entry.folder _ => none) := rfl
  rw [h2eq, hmap]
  exact ⟨by simp, rfl⟩

/-- Witness for C5: duplicating `v0001` (two files) next to one existing
version folder yields `v0002` with the same two contents and renamed
files. -/
theorem duplicateVersionFolder_spec_witness :
    (duplicateVersionFolder [Entry.folder "v0001".toList] "v0001".toList
      [Entry.file "v0001_scene0001.md".toList "# Scene 1".toList,
       Entry.file "v0001_0_notes.md".toList "# Notes".toList]).1 =
      "v0002".toList ∧
    (duplicateVersionFolder [Entry.folder "v0001".toList] "v0001".toList
      [Entry.file "v0001_scene0001.md".toList "# Scene 1".toList,
       Entry.file "v0001_0_notes.md".toList "# Notes".toList]).2.length =
      2 ∧
    (duplicateVersionFolder [Entry.folder "v0001".toList] "v0001".toList
      [Entry.file "v0001_scene0001.md".toList "# Scene 1".toList,
       Entry.file "v0001_0_notes.md".toList "# Notes".toList]).2 =
      [("v0002_scene0001.md".toList, "# Scene 1".toList),
       ("v0002_0_notes.md".toList, "# Notes".toList)] := by
  have h := duplicateVersionFolder_spec [Entry.folder "v0001".toList]
    "v0001".toList
    [Entry.file "v0001_scene0001.md".toList "# Scene 1".toList,
     Entry.file "v0001_0_notes.md".toList "# Notes".toList] (by decide)
  exact ⟨by decide, h.1.trans (by decide), h.2.trans (by decide)⟩

/-- C8: Create Version Folder issues exactly four creations (folder, then
the three seed files) strictly in sequence, and when the run fails the
completed prefix is strict, every path created by the completed prefix is
still present in the final vault, the prior vault contents are still
present (no rollback or cleanup), and nothing else was created. -/
theorem createNewVersionFolder_not_atomic (v : Vault) (path : Str)
    (children : List Entry) :
    (versionFolderOps path children).length = 4 ∧
    ((runCreateNewVersionFolder v path children).failed = true →
      (runCreateNewVersionFolder v path children).completed < 4 ∧
      (∀ p ∈ v, p ∈ (runCreateNewVersionFolder v path children).vault) ∧
      (∀ op ∈ (versionFolderOps path children).take
          (runCreateNewVersionFolder v path children).completed,
        op.path ∈ (runCreateNewVersionFolder v path children).vault) ∧
      (∀ p ∈ (runCreateNewVersionFolder v path children).vault,
        p ∈ v ∨ p ∈ ((versionFolderOps path children).take
          (runCreateNewVersionFolder v path children).completed).map
            VaultOp.path)) := by
  have hlen : (versionFolderOps path children).length = 4 := by
    simp [versionFolderOps, createNewVersionFolder]
  refine ⟨hlen, fun hf => ⟨?_, ?_, ?_, ?_⟩⟩
  · have hlt := runOps_failed_lt (versionFolderOps path children) v hf
    rw [hlen] at hlt
    exact hlt
  · exact runOps_preserves _ v
  · exact runOps_created _ v
  · exact runOps_vault_from _ v

/-- Witness for C8: with a file already sitting at the notes path, the run
fails at the third creation; the folder and the title page created before
it remain, as does the pre-existing file. -/
theorem createNewVersionFolder_not_atomic_witness :
    (runCreateNewVersionFolder ["w/v0001/v0001_0_notes.md".toList]
      "w".toList []).failed = true ∧
    (runCreateNewVersionFolder ["w/v0001/v0001_0_notes.md".toList]
      "w".toList []).completed = 2 ∧
    (runCreateNewVersionFolder ["w/v0001/v0001_0_notes.md".toList]
      "w".toList []).completed < 4 ∧
    "w/v0001".toList ∈ (runCreateNewVersionFolder
      ["w/v0001/v0001_0_notes.md".toList] "w".toList []).vault ∧
    "w/v0001/v0001_0_title_page.md".toList ∈ (runCreateNewVersionFolder
      ["w/v0001/v0001_0_notes.md".toList] "w".toList []).vault ∧
    "w/v0001/v0001_0_notes.md".toList ∈ (runCreateNewVersionFolder
      ["w/v0001/v0001_0_notes.md".toList] "w".toList []).vault := by
  have h := createNewVersionFolder_not_atomic
    ["w/v0001/v0001_0_notes.md".toList] "w".toList []
  have hf : (runCreateNewVersionFolder ["w/v0001/v0001_0_notes.md".toList]
      "w".toList []).failed = true := by decide
  obtain ⟨hlen, himp⟩ := h
  obtain ⟨hlt, hpres, hcre, hfrom⟩ := himp hf
  refine ⟨hf, by decide, hlt, ?_, ?_, ?_⟩
  · exact hcre (VaultOp.mkFolder "w/v0001".toList) (by decide)
  · exact hcre (VaultOp.mkFile "w/v0001/v0001_0_title_page.md".toList
      "# Title Page".toList) (by decide)
  · exact hpres _ (by decide)
